import Mathlib

/-!
# Verification of the go-pkg-utils message-broker client (package `queue`)

A shallow embedding, in Lean 4, of the resilient RabbitMQ producer/consumer
pair of `github.com/kerimovok/go-pkg-utils` (files `queue/config.go`,
`queue/producer.go`, `queue/consumer.go`, `queue/retry.go`, and the
event/task producer adapters), together with proofs and refutations of the
specified properties.

Modelling conventions:

* Go's `int`, `int32`, `int64` are embedded as `Int` with explicit two's
  complement wrap-around (`wrap32`, `wrap64`) exactly where Go arithmetic
  can overflow (`time.Duration` arithmetic is `int64` arithmetic).
* AMQP header tables (`amqp.Table`, a Go `map[string]interface{}`) are
  embedded as association lists `Table`; the dynamically typed values this
  package stores in tables (`int32`, `int64`, Go `int`, `string`) are the
  constructors of `FieldValue`, so Go type assertions such as
  `retryCount.(int32)` become pattern matches on the constructor.
* Broker calls are effects: each function that talks to the broker returns
  the ordered list of operations it attempted, and takes the broker's
  response as an explicit argument (an environment function), so that
  "aborts on first error" and "does not attempt a call" are provable
  statements about the returned trace.
* Message bodies (`[]byte`) are opaque to the core client, so the embedding
  is polymorphic in the body type `β`.
-/

/-- Go `error` values: only their message text is observable here. -/
abbrev GoError := String

/-- Two's complement wrap-around of Go `int32` arithmetic. -/
def wrap32 (x : Int) : Int := (x + 2 ^ 31) % 2 ^ 32 - 2 ^ 31

/-- Two's complement wrap-around of Go `int64` (and `time.Duration`)
arithmetic. -/
def wrap64 (x : Int) : Int := (x + 2 ^ 63) % 2 ^ 64 - 2 ^ 63

/-- Go `int64` multiplication (`time.Duration` values are `int64`
nanosecond counts, and products wrap on overflow). -/
def goMul64 (a b : Int) : Int := wrap64 (a * b)

/-- `time.Second` in nanoseconds. -/
def goSecond : Int := 1000000000

/-- A dynamically typed AMQP field-table value, covering the Go types this
package actually stores in `amqp.Table`: `int32` (read back by
`GetRetryCount`), Go `int` (written by `processMessage`), `int64`
(`time.Now().Unix()`), and `string`. -/
inductive FieldValue where
  | vint32 (n : Int)
  | vint (n : Int)
  | vint64 (n : Int)
  | vstr (s : String)
deriving DecidableEq

/-- An `amqp.Table` (`map[string]interface{}`): embedded as an association
list; the tables built by this package have pairwise distinct keys, so
lookup order is immaterial. -/
abbrev Table := List (String × FieldValue)

/-- Go map read `t[key]` (the `value, exists := t[key]` form). -/
def lookupHeader : Table → String → Option FieldValue
  | [], _ => none
  | (k, v) :: rest, key => if k = key then some v else lookupHeader rest key

/-- An `amqp.Delivery` as far as this package inspects it: a body (opaque,
type `β`) and an optional headers table (`msg.Headers` may be nil). -/
structure Delivery (β : Type) where
  body : β
  headers : Option Table
deriving DecidableEq

/-- `queue.RetryConfig` (retry.go lines 11-15): `MaxRetries`,
`RetryDelayBase`, `MaxRetryDelay` are Go `int` fields. -/
structure RetryConfig where
  MaxRetries : Int
  RetryDelayBase : Int
  MaxRetryDelay : Int
deriving DecidableEq

/-- `queue.GetRetryCount` (retry.go lines 18-27): if headers exist and hold
an `x-retry-count` key whose value type-asserts to `int32`, return it
(converted to `int`, an exact conversion); otherwise return 0. -/
def GetRetryCount {β : Type} (msg : Delivery β) : Int :=
  match msg.headers with
  | some headers =>
    match lookupHeader headers "x-retry-count" with
    | some (FieldValue.vint32 count) => count
    | _ => 0
  | none => 0

/-- `queue.CalculateRetryDelay` (retry.go lines 30-40):
`delay := time.Duration(config.RetryDelayBase) * time.Duration(1<<retryCount) * time.Second`,
then capped at `time.Duration(config.MaxRetryDelay) * time.Second`.
All three factors are `int64` values and each Go multiplication (and the
shift `1 << retryCount`, which Go evaluates as repeated doubling with
wrap-around) can overflow, hence the explicit `wrap64`/`goMul64`.
The Go `retryCount` argument is an `int`; a negative value would make
`1 << retryCount` panic at run time, so the embedding takes a `Nat`. -/
def CalculateRetryDelay (retryCount : Nat) (config : RetryConfig) : Int :=
  let delay := goMul64 (goMul64 config.RetryDelayBase (wrap64 (2 ^ retryCount))) goSecond
  if delay > goMul64 config.MaxRetryDelay goSecond then
    goMul64 config.MaxRetryDelay goSecond
  else
    delay

/-! ## Topology configurator (`queue/config.go`) -/

/-- `queue.Config` (config.go lines 8-16). -/
structure Config where
  ExchangeName : String
  ExchangeType : String
  QueueName : String
  RoutingKey : String
  DLXExchangeName : String
  DLQName : String
  DLQRoutingKey : String
deriving DecidableEq

/-- `Config.getExchangeType` (config.go lines 19-24): defaults to
"direct" when unset. -/
def Config.getExchangeType (qc : Config) : String :=
  if qc.ExchangeType = "" then "direct" else qc.ExchangeType

/-- `Config.GetQueueArguments` (config.go lines 27-35): the fixed policy
arguments attached to the main queue. -/
def Config.GetQueueArguments (qc : Config) : Table :=
  [("x-message-ttl", FieldValue.vint32 86400000),
   ("x-max-priority", FieldValue.vint32 10),
   ("x-overflow", FieldValue.vstr "drop-head"),
   ("x-dead-letter-exchange", FieldValue.vstr qc.DLXExchangeName),
   ("x-dead-letter-routing-key", FieldValue.vstr qc.DLQRoutingKey)]

/-- One AMQP channel operation attempted during topology setup, with the
arguments the Go code passes. -/
inductive BrokerOp where
  | exchangeDeclare (name ty : String) (durable autoDelete internal noWait : Bool)
  | queueDeclare (name : String) (durable autoDelete exclusive noWait : Bool)
      (args : Option Table)
  | queueBind (queue key exchange : String) (noWait : Bool)
deriving DecidableEq

/-- The broker's response to each operation: `env op` is the error (if any)
the corresponding `ch.ExchangeDeclare`/`ch.QueueDeclare`/`ch.QueueBind`
call returns. -/
def BrokerEnv : Type := BrokerOp → Except GoError Unit

/-- `Config.SetupExchange` (config.go lines 38-48): declare the main
exchange (durable, not auto-deleted, not internal, no-wait false). -/
def Config.SetupExchange (qc : Config) (env : BrokerEnv) :
    List BrokerOp × Except GoError Unit :=
  let op := BrokerOp.exchangeDeclare qc.ExchangeName qc.getExchangeType true false false false
  ([op], env op)

/-- `Config.SetupDeadLetterExchange` (config.go lines 51-61): declare the
dead-letter exchange (type "direct", durable). -/
def Config.SetupDeadLetterExchange (qc : Config) (env : BrokerEnv) :
    List BrokerOp × Except GoError Unit :=
  let op := BrokerOp.exchangeDeclare qc.DLXExchangeName "direct" true false false false
  ([op], env op)

/-- `Config.SetupDeadLetterQueue` (config.go lines 64-85): declare the DLQ
(durable, nil arguments), and if that succeeds bind it to the dead-letter
exchange under the dead-letter routing key. `QueueDeclare` echoes the
requested name back for a non-empty name, so `dlq.Name = qc.DLQName`. -/
def Config.SetupDeadLetterQueue (qc : Config) (env : BrokerEnv) :
    List BrokerOp × Except GoError Unit :=
  let dOp := BrokerOp.queueDeclare qc.DLQName true false false false none
  match env dOp with
  | Except.error e => ([dOp], Except.error e)
  | Except.ok _ =>
    let bOp := BrokerOp.queueBind qc.DLQName qc.DLQRoutingKey qc.DLXExchangeName false
    ([dOp, bOp], env bOp)

/-- `Config.SetupMainQueue` (config.go lines 88-109): declare the main
queue with `GetQueueArguments`, and if that succeeds bind it to the main
exchange under the routing key. -/
def Config.SetupMainQueue (qc : Config) (env : BrokerEnv) :
    List BrokerOp × Except GoError Unit :=
  let dOp := BrokerOp.queueDeclare qc.QueueName true false false false (some qc.GetQueueArguments)
  match env dOp with
  | Except.error e => ([dOp], Except.error e)
  | Except.ok _ =>
    let bOp := BrokerOp.queueBind qc.QueueName qc.RoutingKey qc.ExchangeName false
    ([dOp, bOp], env bOp)

/-- `Config.SetupAllQueues` (config.go lines 112-137): dead-letter exchange
(if named), dead-letter queue (if named), main exchange, then — only if a
queue name is given — the main queue; each step's error is returned
immediately and aborts the remaining steps. The first component collects
the channel operations actually attempted, in order. -/
def Config.SetupAllQueues (qc : Config) (env : BrokerEnv) :
    List BrokerOp × Except GoError Unit :=
  let step1 :=
    if qc.DLXExchangeName ≠ "" then qc.SetupDeadLetterExchange env
    else ([], Except.ok ())
  match step1 with
  | (tr1, Except.error e) => (tr1, Except.error e)
  | (tr1, Except.ok _) =>
    let step2 :=
      if qc.DLQName ≠ "" then qc.SetupDeadLetterQueue env
      else ([], Except.ok ())
    match step2 with
    | (tr2, Except.error e) => (tr1 ++ tr2, Except.error e)
    | (tr2, Except.ok _) =>
      match qc.SetupExchange env with
      | (tr3, Except.error e) => (tr1 ++ tr2 ++ tr3, Except.error e)
      | (tr3, Except.ok _) =>
        if qc.QueueName ≠ "" then
          match qc.SetupMainQueue env with
          | (tr4, r) => (tr1 ++ tr2 ++ tr3 ++ tr4, r)
        else
          (tr1 ++ tr2 ++ tr3, Except.ok ())

/-! ## Producer (`queue/producer.go`) -/

/-- A broker resource handle (`*amqp.Connection` or `*amqp.Channel`) as the
client observes it: the pointer may be nil, and an existing handle reports
`IsClosed()`. -/
structure Handle where
  closed : Bool
deriving DecidableEq

/-- `nil`-and-`IsClosed` test used by `Publish`/`IsConnected`:
`h != nil && !h.IsClosed()`. -/
def handleOpen : Option Handle → Bool
  | none => false
  | some h => !h.closed

/-- A Go `context.Context` as far as `Publish` uses it: an optional
deadline (nanoseconds from now). `none` in `Producer.Publish`'s argument
position models passing a nil context. -/
structure Ctx where
  timeoutNanos : Option Int
deriving DecidableEq

/-- The context `Publish` builds when called with a nil context:
`context.WithTimeout(context.Background(), 5*time.Second)`. -/
def defaultPublishCtx : Ctx := ⟨some (5 * goSecond)⟩

/-- An `amqp.Publishing` as built by this package: content type
"application/json", opaque body, optional headers, and a delivery mode
(`amqp.Persistent = 2`). -/
structure Publishing (β : Type) where
  contentType : String
  body : β
  headers : Option Table
  deliveryMode : Nat
deriving DecidableEq

/-- A broker publish attempt: the channel call
`PublishWithContext(ctx, exchange, key, mandatory, immediate, msg)`. -/
inductive PublishEffect (β : Type) where
  | brokerPublish (ctx : Ctx) (exchange routingKey : String)
      (mandatory immediate : Bool) (msg : Publishing β)
deriving DecidableEq

/-- The broker's response to a publish attempt. -/
def PublishEnv (β : Type) : Type := PublishEffect β → Except GoError Unit

/-- `queue.Producer` (producer.go lines 14-20): the supervised
connection/channel pair plus the topology configuration. The mutex only
orders accesses and has no effect on the sequential meaning embedded
here. -/
structure Producer where
  conn : Option Handle
  channel : Option Handle
  config : Config
deriving DecidableEq

/-- `Producer.IsConnected` (producer.go lines 100-104):
`p.conn != nil && !p.conn.IsClosed() && p.channel != nil && !p.channel.IsClosed()`
under a read lock. -/
def Producer.IsConnected (p : Producer) : Bool :=
  handleOpen p.conn && handleOpen p.channel

/-- `Producer.Publish` (producer.go lines 63-97). Under a read lock, if the
connection or channel is nil or closed, return the "not available" error
immediately — no broker call is attempted (the returned trace is empty),
so the caller never waits on the context. Otherwise substitute the default
5-second-timeout context for a nil context and call `PublishWithContext`
on the configured exchange and routing key with a persistent,
"application/json" publishing; a broker error comes back wrapped. -/
def Producer.Publish {β : Type} (p : Producer) (ctx : Option Ctx) (body : β)
    (headers : Option Table) (env : PublishEnv β) :
    List (PublishEffect β) × Except GoError Unit :=
  if handleOpen p.conn && handleOpen p.channel then
    let usedCtx := match ctx with
      | none => defaultPublishCtx
      | some c => c
    let eff := PublishEffect.brokerPublish usedCtx p.config.ExchangeName p.config.RoutingKey
      false false ⟨"application/json", body, headers, 2⟩
    match env eff with
    | Except.ok _ => ([eff], Except.ok ())
    | Except.error e => ([eff], Except.error ("failed to publish message: " ++ e))
  else
    ([], Except.error "RabbitMQ connection is not available")

/-- Modelled from the spec: `Producer.PublishWithRoutingKey` is called by
the tasks adapter (`tasks.Producer.Publish`) but its definition is not
among the given source files of `queue/producer.go`. Per the spec (§4.4)
it is "the same operation parameterized by an explicit routing key": the
body of `Publish` with the explicit `routingKey` in place of
`p.config.RoutingKey`. -/
def Producer.PublishWithRoutingKey {β : Type} (p : Producer) (ctx : Option Ctx) (body : β)
    (headers : Option Table) (routingKey : String) (env : PublishEnv β) :
    List (PublishEffect β) × Except GoError Unit :=
  if handleOpen p.conn && handleOpen p.channel then
    let usedCtx := match ctx with
      | none => defaultPublishCtx
      | some c => c
    let eff := PublishEffect.brokerPublish usedCtx p.config.ExchangeName routingKey
      false false ⟨"application/json", body, headers, 2⟩
    match env eff with
    | Except.ok _ => ([eff], Except.ok ())
    | Except.error e => ([eff], Except.error ("failed to publish message: " ++ e))
  else
    ([], Except.error "RabbitMQ connection is not available")

/-! ## Retry scheduling and message processing (`queue/retry.go`,
`queue/consumer.go`) -/

/-- The delayed re-publish registered by `queue.ScheduleRetry` (retry.go
lines 43-75): after `delay`, publish the body with the given headers to
the configured (main) exchange and routing key, persistent and
"application/json". -/
structure ScheduledPublish (β : Type) where
  delay : Int
  exchange : String
  routingKey : String
  msg : Publishing β
deriving DecidableEq

/-- `queue.ScheduleRetry` (retry.go lines 43-75), as the scheduled publish
it registers (the goroutine sleeps `delay`, then publishes to
`config.ExchangeName` / `config.RoutingKey`; a publish error is only
logged). -/
def ScheduleRetry {β : Type} (config : Config) (body : β) (headers : Table)
    (delay : Int) : ScheduledPublish β :=
  ⟨delay, config.ExchangeName, config.RoutingKey,
   ⟨"application/json", body, some headers, 2⟩⟩

/-- An observable action of `Consumer.processMessage`: reject the delivery
(`msg.Reject(requeue)`), acknowledge it (`msg.Ack(multiple)`), or register
a delayed re-publish via `ScheduleRetry`. Broker errors from
reject/ack/publish are logged and ignored by the code, so they do not
appear here. -/
inductive ConsumerEffect (β : Type) where
  | reject (requeue : Bool)
  | ack (multiple : Bool)
  | schedule (sp : ScheduledPublish β)
deriving DecidableEq

/-- The replacement header table `processMessage` builds on handler
failure (consumer.go lines 176-183): the incremented retry count is stored
as a Go `int` (hence `FieldValue.vint`, not `vint32`), the handler error
text, and `time.Now().Unix()` (an `int64`). -/
def retryHeaders (retryCount : Int) (e : GoError) (now : Int) : Table :=
  [("x-retry-count", FieldValue.vint (retryCount + 1)),
   ("x-last-error", FieldValue.vstr e),
   ("x-last-retry", FieldValue.vint64 now)]

/-- `Consumer.processMessage` (consumer.go lines 160-203), with the
handler, the wall clock (`time.Now().Unix()`) and the delivery as
arguments. If the extracted retry count has reached `MaxRetries`, the
delivery is rejected without requeue and nothing else happens (the handler
is not invoked). Otherwise the handler runs: on success the delivery is
acknowledged (`Ack(false)`); on failure the replacement headers are
built, the delivery is rejected without requeue, and a re-publish is
scheduled after `CalculateRetryDelay(retryCount, config)`.
`GetRetryCount` only returns the value of an `int32` header, so it is
non-negative on every table this package itself writes; `Int.toNat`
bridges to `CalculateRetryDelay`'s `Nat` argument (Go would panic on a
negative shift before ever scheduling). -/
def processMessage {β : Type} (config : Config) (retryConfig : RetryConfig)
    (handler : Delivery β → Except GoError Unit) (now : Int) (msg : Delivery β) :
    List (ConsumerEffect β) :=
  let retryCount := GetRetryCount msg
  if retryCount ≥ retryConfig.MaxRetries then
    [ConsumerEffect.reject false]
  else
    match handler msg with
    | Except.ok _ => [ConsumerEffect.ack false]
    | Except.error e =>
      [ConsumerEffect.reject false,
       ConsumerEffect.schedule
         (ScheduleRetry config msg.body (retryHeaders retryCount e now)
           (CalculateRetryDelay retryCount.toNat retryConfig))]

/-! ## The broker wire round-trip for header tables

The spec's Envelope model fixes `x-retry-count` as a signed 32-bit header.
On the wire (AMQP 0-9-1 field tables, as encoded by the
`rabbitmq/amqp091-go` client this module depends on), a Go `int` table
value is written as the signed 32-bit field type (truncating to 32 bits),
an `int32` as the same type, an `int64` as the signed 64-bit type, and a
string as a long string; the decoder returns those Go types. A published
table therefore arrives with its `vint n` entries replaced by
`vint32 (wrap32 n)`. -/

/-- Wire round-trip of one header value (encode then decode). -/
def wireValue : FieldValue → FieldValue
  | FieldValue.vint n => FieldValue.vint32 (wrap32 n)
  | FieldValue.vint32 n => FieldValue.vint32 (wrap32 n)
  | v => v

/-- Wire round-trip of a header table. -/
def deliverTable (t : Table) : Table :=
  t.map (fun kv => (kv.1, wireValue kv.2))

/-- The delivery a consumer receives for a message published with the
given body and headers (the body bytes pass through unchanged). -/
def redeliver {β : Type} (body : β) (headers : Table) : Delivery β :=
  ⟨body, some (deliverTable headers)⟩

/-! ## The consume loop (`Consumer.consumeLoop`, consumer.go lines 98-157)

The loop is embedded as a transition system. `LoopLoc.outer` is the top of
the outer `for` (stop check, health check, `Qos`, `Consume`);
`LoopLoc.inner` is the inner `for` whose `select` waits on the stop signal
or the delivery stream. One `LoopInput` summarises what one iteration
observes; the step function returns the next location (`none` = the
`return` statements) and the iteration's observable actions.

The decisive detail is faithfully embedded from the source: in

    case msg, ok := <-msgs:
      if !ok { log; time.Sleep(2s); break }

the unlabeled `break` terminates the innermost enclosing `for`, `switch`
or `select` statement — here the `select` — so control falls to the next
iteration of the *inner* `for`, not to the outer loop, despite the
source comment "Break inner loop to retry". -/

/-- Position in `consumeLoop`: top of the outer loop, or inside the inner
receive loop. -/
inductive LoopLoc where
  | outer
  | inner
deriving DecidableEq

/-- What one iteration of `consumeLoop` observes. At `outer`:
`stop` (stop signal already closed), `unhealthy` (nil/closed connection or
channel), `qosErr`, `consumeErr` (the corresponding channel call failed),
or `subscribed` (`Qos` and `Consume` both succeeded). At `inner`: `stop`,
`msg` (a delivery arrived), or `closed` (the delivery stream was closed,
`ok = false`). -/
inductive LoopInput (β : Type) where
  | stop
  | unhealthy
  | qosErr
  | consumeErr
  | subscribed
  | msg (m : Delivery β)
  | closed
deriving DecidableEq

/-- An observable action of one `consumeLoop` iteration. -/
inductive LoopEffect (β : Type) where
  | sleepSeconds (s : Nat)
  | qos (prefetchCount : Nat)
  | subscribe (queue : String)
  | dispatch (m : Delivery β)
deriving DecidableEq

/-- One iteration of `consumeLoop` (consumer.go lines 98-157). Returns the
next location (`none` when the function returns) and the actions the
iteration performed. Inputs that cannot arise at the given location (a
delivery at `outer`, a health-check outcome at `inner`) leave the state
unchanged with no actions. -/
def consumeLoopStep {β : Type} (queueName : String) :
    LoopLoc → LoopInput β → Option LoopLoc × List (LoopEffect β)
  | LoopLoc.outer, LoopInput.stop => (none, [])
  | LoopLoc.outer, LoopInput.unhealthy => (some LoopLoc.outer, [LoopEffect.sleepSeconds 5])
  | LoopLoc.outer, LoopInput.qosErr =>
      (some LoopLoc.outer, [LoopEffect.qos 1, LoopEffect.sleepSeconds 5])
  | LoopLoc.outer, LoopInput.consumeErr =>
      (some LoopLoc.outer,
       [LoopEffect.qos 1, LoopEffect.subscribe queueName, LoopEffect.sleepSeconds 5])
  | LoopLoc.outer, LoopInput.subscribed =>
      (some LoopLoc.inner, [LoopEffect.qos 1, LoopEffect.subscribe queueName])
  | LoopLoc.inner, LoopInput.stop => (none, [])
  | LoopLoc.inner, LoopInput.msg m => (some LoopLoc.inner, [LoopEffect.dispatch m])
  | LoopLoc.inner, LoopInput.closed =>
      -- `break` exits only the `select`; the inner `for` continues.
      (some LoopLoc.inner, [LoopEffect.sleepSeconds 2])
  | LoopLoc.outer, LoopInput.msg _ => (some LoopLoc.outer, [])
  | LoopLoc.outer, LoopInput.closed => (some LoopLoc.outer, [])
  | LoopLoc.inner, LoopInput.unhealthy => (some LoopLoc.inner, [])
  | LoopLoc.inner, LoopInput.qosErr => (some LoopLoc.inner, [])
  | LoopLoc.inner, LoopInput.consumeErr => (some LoopLoc.inner, [])
  | LoopLoc.inner, LoopInput.subscribed => (some LoopLoc.inner, [])

/-- Run `consumeLoop` over a sequence of observations, collecting all
actions; the second component is the final location (`none` once the loop
returned). -/
def consumeLoopRun {β : Type} (queueName : String) :
    LoopLoc → List (LoopInput β) → List (LoopEffect β) × Option LoopLoc
  | loc, [] => ([], some loc)
  | loc, i :: rest =>
    match consumeLoopStep queueName loc i with
    | (none, effs) => (effs, none)
    | (some loc', effs) =>
      let r := consumeLoopRun queueName loc' rest
      (effs ++ r.1, r.2)

/-! ## Close watchers and reconnection (`setupConnectionRecovery`,
`reconnect`; producer.go lines 123-195, consumer.go lines 239-322)

Connection/channel pairs are numbered by generation: generation 0 is the
pair made at construction, and each successful pass of the `reconnect`
loop installs generation `g+1`. `setupConnectionRecovery` starts watcher
goroutines that range over `NotifyClose` channels of the *current*
generation's connection and channel; such a watcher runs `reconnect` when
its resource closes with an error, and terminates when its `NotifyClose`
channel is closed (which happens when its — old — resource is closed).
`watchedGens` records the generations that still have live watchers.

In the source, `Producer.reconnect` and `Consumer.reconnect` close the old
pair, dial a new one, re-run `SetupAllQueues`, and swap the pointers — and
do *not* call `setupConnectionRecovery` (or register any `NotifyClose`
handler) for the new pair, so the new generation is unwatched. -/

/-- Watcher bookkeeping for one Producer or Consumer. -/
structure SupervisorState where
  generation : Nat
  watchedGens : List Nat
deriving DecidableEq

/-- State after `NewProducer`/`NewConsumer` (producer.go lines 23-60,
consumer.go lines 40-81): the initial pair is generation 0 and
`setupConnectionRecovery` has registered its watchers. -/
def newSupervisorState : SupervisorState := ⟨0, [0]⟩

/-- The successful tail of `reconnect` (producer.go lines 144-195,
consumer.go lines 260-322): the old pair is closed (ending its watchers)
and replaced by a fresh pair one generation up; no watcher registration
occurs for the new pair. -/
def reconnectSwap (s : SupervisorState) : SupervisorState :=
  ⟨s.generation + 1, s.watchedGens.erase s.generation⟩

/-- A broker-side close notification on the current generation's
connection or channel: if a watcher is live for that generation it fires
and runs `reconnect` (producer.go lines 123-141, consumer.go lines
239-257); otherwise nobody observes the close and no reconnect happens
(`none`). -/
def handleCloseNotification (s : SupervisorState) : Option SupervisorState :=
  if s.generation ∈ s.watchedGens then some (reconnectSwap s) else none

/-! ## Event and task producer adapters (`queue/events/producer.go`,
`tasks` package)

Payload maps (`map[string]any`) are embedded as association lists over a
scalar value type: the adapters never inspect payload values other than
checking for the presence of the "timestamp" key and inserting an RFC3339
string, so structured JSON values are not needed. Go maps are reference
values: an insertion into a non-nil caller-supplied map is visible to the
caller after the call, while the `payload = make(map[string]any)`
replacement of a nil argument rebinds only the callee's local variable.
Each adapter function therefore returns, alongside the underlying publish
call, the caller's view of the payload map after the call. -/

/-- A payload value (`any`), as far as the adapters distinguish them. -/
inductive JsonVal where
  | str (s : String)
  | num (n : Int)
  | boolean (b : Bool)
  | null
deriving DecidableEq

/-- A Go `map[string]any` payload. -/
abbrev PayloadMap := List (String × JsonVal)

/-- Go map read `m[key]` (the `value, ok := m[key]` form). -/
def mapLookup : PayloadMap → String → Option JsonVal
  | [], _ => none
  | (k, v) :: rest, key => if k = key then some v else mapLookup rest key

/-- Go map assignment `m[key] = v`: replace an existing entry or add a new
one. -/
def mapInsert : PayloadMap → String → JsonVal → PayloadMap
  | [], key, v => [(key, v)]
  | (k, w) :: rest, key, v =>
    if k = key then (key, v) :: rest else (k, w) :: mapInsert rest key v

/-- `events.Event` (events/producer.go lines 13-17): the fixed envelope
`{service, type, payload}` serialized (via `json.Marshal`, which cannot
fail on these values) as the published body. -/
structure Event where
  service : String
  type : String
  payload : PayloadMap
deriving DecidableEq

/-- `tasks.Task`: the same `{service, type, payload}` envelope for the
tasks exchange (named `TaskMsg` here; `Task` is taken by the Lean core
library). -/
structure TaskMsg where
  service : String
  type : String
  payload : PayloadMap
deriving DecidableEq

/-- The timestamp-stamping both adapters perform: a nil payload is
replaced by an empty map, then "timestamp" is inserted if absent (the
RFC3339 text of `time.Now().UTC()` is the `now` argument). -/
def stampTimestamp (payload : Option PayloadMap) (now : String) : PayloadMap :=
  let m := match payload with
    | none => []
    | some m0 => m0
  if (mapLookup m "timestamp").isSome then m else mapInsert m "timestamp" (JsonVal.str now)

/-- The caller's view of its payload map after an adapter call: unchanged
(`none`) if it passed nil, otherwise the stamped map (Go map mutation is
in place). -/
def callerPayloadAfter (payload : Option PayloadMap) (now : String) : Option PayloadMap :=
  match payload with
  | none => none
  | some _ => some (stampTimestamp payload now)

/-- `events.Producer.Publish` (events/producer.go lines 68-90): stamp the
payload, build the `Event` envelope with the adapter's service name,
marshal it, and publish via `Producer.Publish` (nil headers, the
configured constant routing key). Returns the caller's view of the payload
map alongside the publish call's trace and result. -/
def eventsPublish (service : String) (p : Producer) (ctx : Option Ctx)
    (eventType : String) (payload : Option PayloadMap) (now : String)
    (env : PublishEnv Event) :
    Option PayloadMap × (List (PublishEffect Event) × Except GoError Unit) :=
  let stamped := stampTimestamp payload now
  (callerPayloadAfter payload now,
   p.Publish ctx ⟨service, eventType, stamped⟩ none env)

/-- `tasks.Producer.Publish`: stamp the payload, build the `Task` envelope
with the adapter's service name, marshal it, and publish via
`Producer.PublishWithRoutingKey` with the derived routing key
`"tasks." + taskType` (nil headers). -/
def tasksPublish (service : String) (p : Producer) (ctx : Option Ctx)
    (taskType : String) (payload : Option PayloadMap) (now : String)
    (env : PublishEnv TaskMsg) :
    Option PayloadMap × (List (PublishEffect TaskMsg) × Except GoError Unit) :=
  let stamped := stampTimestamp payload now
  (callerPayloadAfter payload now,
   p.PublishWithRoutingKey ctx ⟨service, taskType, stamped⟩ none
     ("tasks." ++ taskType) env)

/-! ## Specification-side definitions

`plannedOps` and `seqOps` state, in one place, the order of declarations
the spec prescribes and the "first error aborts and is returned"
discipline; the topology claim compares `Config.SetupAllQueues` (embedded
from the source above) against them. -/

/-- The declarations topology setup should attempt, in the spec's order:
dead-letter exchange (only if named), dead-letter queue and its binding
(only if named), main exchange, then main queue with `GetQueueArguments`
and its binding (only if a queue name is given). -/
def plannedOps (qc : Config) : List BrokerOp :=
  (if qc.DLXExchangeName ≠ "" then
    [BrokerOp.exchangeDeclare qc.DLXExchangeName "direct" true false false false]
  else []) ++
  (if qc.DLQName ≠ "" then
    [BrokerOp.queueDeclare qc.DLQName true false false false none,
     BrokerOp.queueBind qc.DLQName qc.DLQRoutingKey qc.DLXExchangeName false]
  else []) ++
  [BrokerOp.exchangeDeclare qc.ExchangeName qc.getExchangeType true false false false] ++
  (if qc.QueueName ≠ "" then
    [BrokerOp.queueDeclare qc.QueueName true false false false (some qc.GetQueueArguments),
     BrokerOp.queueBind qc.QueueName qc.RoutingKey qc.ExchangeName false]
  else [])

/-- Run a list of broker operations in order, stopping at the first error,
which is returned; the first component is the operations attempted. -/
def seqOps (env : BrokerEnv) : List BrokerOp → List BrokerOp × Except GoError Unit
  | [] => ([], Except.ok ())
  | op :: rest =>
    match env op with
    | Except.error e => ([op], Except.error e)
    | Except.ok _ =>
      let r := seqOps env rest
      (op :: r.1, r.2)

/-- A sample topology configuration, for concrete witnesses. -/
def sampleConfig : Config :=
  ⟨"orders", "direct", "orders.q", "order.created", "orders.dlx", "orders.dlq",
   "orders.failed"⟩

/-! ## Arithmetic helper lemmas -/

/-- `wrap64` is the identity on the `int64` range. -/
theorem wrap64_id (x : Int) (h1 : -(2 ^ 63) ≤ x) (h2 : x < 2 ^ 63) : wrap64 x = x := by
  unfold wrap64
  rw [Int.emod_eq_of_lt (by omega) (by omega)]
  omega

/-- `wrap32` is the identity on the `int32` range. -/
theorem wrap32_id (x : Int) (h1 : -(2 ^ 31) ≤ x) (h2 : x < 2 ^ 31) : wrap32 x = x := by
  unfold wrap32
  rw [Int.emod_eq_of_lt (by omega) (by omega)]
  omega

/-- When none of the intermediate `int64` products overflows,
`CalculateRetryDelay` is the exact exponential-backoff formula
`min (base * 2^retryCount, maxDelay)` in seconds. -/
theorem calculateRetryDelay_eq_min (cfg : RetryConfig) (rc : Nat)
    (hb : 0 ≤ cfg.RetryDelayBase) (hm : 0 ≤ cfg.MaxRetryDelay) (hrc : rc ≤ 62)
    (hov : cfg.RetryDelayBase * 2 ^ rc * goSecond < 2 ^ 63)
    (hovm : cfg.MaxRetryDelay * goSecond < 2 ^ 63) :
    CalculateRetryDelay rc cfg =
      min (cfg.RetryDelayBase * 2 ^ rc * goSecond) (cfg.MaxRetryDelay * goSecond) := by
  have hsec : (1 : Int) ≤ goSecond := by norm_num [goSecond]
  have hsec0 : (0 : Int) ≤ goSecond := by norm_num [goSecond]
  have hp0 : (0 : Int) ≤ 2 ^ rc := by positivity
  have hple : (2 : Int) ^ rc ≤ 2 ^ 62 := pow_le_pow_right₀ (by norm_num) hrc
  have hplt : (2 : Int) ^ rc < 2 ^ 63 := lt_of_le_of_lt hple (by norm_num)
  have hbase0 : (0 : Int) ≤ cfg.RetryDelayBase * 2 ^ rc := mul_nonneg hb hp0
  have hall0 : (0 : Int) ≤ cfg.RetryDelayBase * 2 ^ rc * goSecond := mul_nonneg hbase0 hsec0
  have hbaselt : cfg.RetryDelayBase * 2 ^ rc < 2 ^ 63 := by
    have := le_mul_of_one_le_right hbase0 hsec
    linarith
  have hm0 : (0 : Int) ≤ cfg.MaxRetryDelay * goSecond := mul_nonneg hm hsec0
  have e1 : wrap64 (2 ^ rc) = 2 ^ rc := wrap64_id _ (by linarith) hplt
  have e2 : goMul64 cfg.RetryDelayBase (2 ^ rc) = cfg.RetryDelayBase * 2 ^ rc :=
    wrap64_id _ (by linarith) hbaselt
  have e3 : goMul64 (cfg.RetryDelayBase * 2 ^ rc) goSecond =
      cfg.RetryDelayBase * 2 ^ rc * goSecond :=
    wrap64_id _ (by linarith) hov
  have e4 : goMul64 cfg.MaxRetryDelay goSecond = cfg.MaxRetryDelay * goSecond :=
    wrap64_id _ (by linarith) hovm
  unfold CalculateRetryDelay
  rw [e1, e2, e3, e4]
  rcases lt_or_le (cfg.MaxRetryDelay * goSecond) (cfg.RetryDelayBase * 2 ^ rc * goSecond)
    with h | h
  · rw [if_pos h, min_eq_right (le_of_lt h)]
  · rw [if_neg (not_lt.mpr h), min_eq_left h]

/-! ## Claim C3: the retry-delay formula -/

/-- C3, counterexample: `CalculateRetryDelay` is *not* the capped
exponential formula for every retryCount, and not monotone: at
`retryCount = 34` (base 1s, cap 300s) the `int64` nanosecond product
`2^34 * 10^9` overflows and wraps to a negative duration, below the value
at `retryCount = 33` (which is capped to 300s), and below the formula's
capped value. -/
theorem calculateRetryDelay_overflow_cex :
    CalculateRetryDelay 34 ⟨3, 1, 300⟩ < CalculateRetryDelay 33 ⟨3, 1, 300⟩ ∧
    CalculateRetryDelay 33 ⟨3, 1, 300⟩ = 300 * goSecond ∧
    CalculateRetryDelay 34 ⟨3, 1, 300⟩ = -1266874889709551616 ∧
    CalculateRetryDelay 34 ⟨3, 1, 300⟩ ≠
      min ((1 : Int) * 2 ^ 34 * goSecond) (300 * goSecond) := by
  refine ⟨by decide, by decide, by decide, by decide⟩

/-- C3 (amended): for non-negative base and cap, and retry counts small
enough that neither the shift nor the `int64` nanosecond products
overflow (`retryCount ≤ 62`, `base * 2^retryCount * 10^9 < 2^63`,
`cap * 10^9 < 2^63`), `CalculateRetryDelay` equals
`retryDelayBase * 2^retryCount` seconds capped at `maxRetryDelay` seconds,
is monotonically non-decreasing in the retry count, and never exceeds
`maxRetryDelaySeconds`. -/
theorem calculateRetryDelay_formula_monotone (cfg : RetryConfig) (rc1 rc2 : Nat)
    (hb : 0 ≤ cfg.RetryDelayBase) (hm : 0 ≤ cfg.MaxRetryDelay)
    (hr : rc1 ≤ rc2) (hrc : rc2 ≤ 62)
    (hov : cfg.RetryDelayBase * 2 ^ rc2 * goSecond < 2 ^ 63)
    (hovm : cfg.MaxRetryDelay * goSecond < 2 ^ 63) :
    CalculateRetryDelay rc1 cfg =
      min (cfg.RetryDelayBase * 2 ^ rc1 * goSecond) (cfg.MaxRetryDelay * goSecond) ∧
    CalculateRetryDelay rc1 cfg ≤ CalculateRetryDelay rc2 cfg ∧
    CalculateRetryDelay rc2 cfg ≤ cfg.MaxRetryDelay * goSecond := by
  have hsec0 : (0 : Int) ≤ goSecond := by norm_num [goSecond]
  have hple : (2 : Int) ^ rc1 ≤ 2 ^ rc2 := pow_le_pow_right₀ (by norm_num) hr
  have hmono : cfg.RetryDelayBase * 2 ^ rc1 * goSecond ≤
      cfg.RetryDelayBase * 2 ^ rc2 * goSecond :=
    mul_le_mul_of_nonneg_right (mul_le_mul_of_nonneg_left hple hb) hsec0
  have hov1 : cfg.RetryDelayBase * 2 ^ rc1 * goSecond < 2 ^ 63 := lt_of_le_of_lt hmono hov
  have h1 := calculateRetryDelay_eq_min cfg rc1 hb hm (le_trans hr hrc) hov1 hovm
  have h2 := calculateRetryDelay_eq_min cfg rc2 hb hm hrc hov hovm
  refine ⟨h1, ?_, ?_⟩
  · rw [h1, h2]
    exact min_le_min hmono (le_refl _)
  · rw [h2]
    exact min_le_right _ _

/-- C3 witness: the amended statement at base 1s, cap 300s,
retry counts 2 ≤ 5: the delay at 2 is `min(4s, 300s) = 4s`. -/
theorem calculateRetryDelay_formula_monotone_witness :
    CalculateRetryDelay 2 ⟨3, 1, 300⟩ =
      min ((1 : Int) * 2 ^ 2 * goSecond) (300 * goSecond) :=
  (calculateRetryDelay_formula_monotone ⟨3, 1, 300⟩ 2 5 (by decide) (by decide)
    (by decide) (by decide) (by decide) (by decide)).1

/-! ## Claim C6: `GetRetryCount` -/

/-- C6: `GetRetryCount` returns 0 when the headers table is nil, when the
`x-retry-count` key is absent, and when the stored value is not an
`int32`; it returns the stored integer when the value is an `int32`. -/
theorem getRetryCount_cases {β : Type} (msg : Delivery β) :
    (msg.headers = none → GetRetryCount msg = 0) ∧
    (∀ t, msg.headers = some t → lookupHeader t "x-retry-count" = none →
      GetRetryCount msg = 0) ∧
    (∀ t v, msg.headers = some t → lookupHeader t "x-retry-count" = some v →
      (∀ n, v ≠ FieldValue.vint32 n) → GetRetryCount msg = 0) ∧
    (∀ t n, msg.headers = some t →
      lookupHeader t "x-retry-count" = some (FieldValue.vint32 n) →
      GetRetryCount msg = n) := by
  refine ⟨?_, ?_, ?_, ?_⟩
  · intro h
    simp [GetRetryCount, h]
  · intro t ht hl
    simp [GetRetryCount, ht, hl]
  · intro t v ht hl hv
    cases v with
    | vint32 n => exact absurd rfl (hv n)
    | vint n => simp [GetRetryCount, ht, hl]
    | vint64 n => simp [GetRetryCount, ht, hl]
    | vstr s => simp [GetRetryCount, ht, hl]
  · intro t n ht hl
    simp [GetRetryCount, ht, hl]

/-- C6 witness: a delivery with no headers reads 0; one with an absent
key reads 0; one with a string value reads 0; one with `int32 7` reads
7. -/
theorem getRetryCount_cases_witness :
    GetRetryCount (Delivery.mk (0 : Nat) none) = 0 ∧
    GetRetryCount (Delivery.mk (0 : Nat) (some [("other", FieldValue.vint32 5)])) = 0 ∧
    GetRetryCount (Delivery.mk (0 : Nat) (some [("x-retry-count", FieldValue.vstr "7")])) = 0 ∧
    GetRetryCount (Delivery.mk (0 : Nat) (some [("x-retry-count", FieldValue.vint32 7)])) = 7 :=
  ⟨(getRetryCount_cases _).1 rfl,
   (getRetryCount_cases _).2.1 _ rfl (by decide),
   (getRetryCount_cases _).2.2.1 [("x-retry-count", FieldValue.vstr "7")]
     (FieldValue.vstr "7") rfl (by decide) (by intro n h; exact FieldValue.noConfusion h),
   (getRetryCount_cases _).2.2.2 _ 7 rfl (by decide)⟩

/-! ## Claim C4: re-subscription after the delivery stream closes -/

/-- Once `consumeLoop` is in the inner receive loop, no sequence of
deliveries and stream-closure observations ever brings it back to the
outer loop or makes it call `Consume` again: the `break` after the
2-second sleep terminates only the `select`. -/
theorem consumeLoopRun_inner_stuck {β : Type} (q : String) (inputs : List (LoopInput β))
    (h : ∀ i ∈ inputs, i = LoopInput.closed ∨ ∃ m, i = LoopInput.msg m) :
    (consumeLoopRun q LoopLoc.inner inputs).2 = some LoopLoc.inner ∧
    ∀ e ∈ (consumeLoopRun q LoopLoc.inner inputs).1, ∀ qn, e ≠ LoopEffect.subscribe qn := by
  induction inputs with
  | nil => simp [consumeLoopRun]
  | cons i rest ih =>
    have hrest := ih (fun j hj => h j (List.mem_cons_of_mem i hj))
    rcases h i (List.mem_cons_self i rest) with hc | ⟨m, hm⟩
    · subst hc
      simp only [consumeLoopRun, consumeLoopStep]
      refine ⟨hrest.1, ?_⟩
      intro e he qn
      rcases List.mem_cons.mp he with he1 | he2
      · subst he1
        intro hcontra
        exact LoopEffect.noConfusion hcontra
      · exact hrest.2 e he2 qn
    · subst hm
      simp only [consumeLoopRun, consumeLoopStep]
      refine ⟨hrest.1, ?_⟩
      intro e he qn
      rcases List.mem_cons.mp he with he1 | he2
      · subst he1
        intro hcontra
        exact LoopEffect.noConfusion hcontra
      · exact hrest.2 e he2 qn

/-- C4 (refuting the claim): a consumer in the inner receive loop that
observes the delivery stream closing sleeps 2 seconds but never
re-subscribes — the unlabeled `break` terminates the `select`, not the
inner `for`, so the outer loop (where `channel.Consume` is re-invoked) is
never reached and every further read of the closed stream repeats the
sleep. Concretely, four consecutive closed-stream observations produce
four sleeps, no `subscribe`, and leave the loop still inside the inner
receive loop. -/
theorem consumeLoop_closed_stream_never_resubscribes :
    consumeLoopRun "orders" LoopLoc.inner
        ([LoopInput.closed, LoopInput.closed, LoopInput.closed, LoopInput.closed] :
          List (LoopInput Nat)) =
      ([LoopEffect.sleepSeconds 2, LoopEffect.sleepSeconds 2,
        LoopEffect.sleepSeconds 2, LoopEffect.sleepSeconds 2],
       some LoopLoc.inner) := by
  rfl

/-! ## Claim C5: close watchers after reconnection -/

/-- C5 (refuting the claim): at construction, generation 0 is watched, so
the first close notification fires `reconnect`, which installs generation
1 — but `reconnect` registers no watcher for the new pair (it never calls
`setupConnectionRecovery`), so after the first reconnection no generation
is watched and a second close notification on the new connection/channel
triggers nothing. `Producer.reconnect` (producer.go lines 144-195) and
`Consumer.reconnect` (consumer.go lines 260-322) are identical in this
respect. -/
theorem reconnect_leaves_new_generation_unwatched :
    handleCloseNotification newSupervisorState =
      some ⟨1, []⟩ ∧
    handleCloseNotification ⟨1, []⟩ = none := by
  refine ⟨by decide, by decide⟩

/-! ## Claim C7: topology setup -/

/-- `seqOps` of a one-element list is that operation and its response. -/
theorem seqOps_singleton (env : BrokerEnv) (op : BrokerOp) :
    seqOps env [op] = ([op], env op) := by
  cases henv : env op <;> simp [seqOps, henv]

/-- If the first block of operations succeeds, `seqOps` continues into the
second block. -/
theorem seqOps_append_ok (env : BrokerEnv) (l1 l2 : List BrokerOp)
    (h : (seqOps env l1).2 = Except.ok ()) :
    seqOps env (l1 ++ l2) = ((seqOps env l1).1 ++ (seqOps env l2).1, (seqOps env l2).2) := by
  induction l1 with
  | nil => simp [seqOps]
  | cons op tail ih =>
    cases henv : env op with
    | error e => simp [seqOps, henv] at h
    | ok u =>
      cases u
      simp only [seqOps, henv] at h ⊢
      simp [ih h]

/-- If the first block of operations fails, `seqOps` never reaches the
second block. -/
theorem seqOps_append_error (env : BrokerEnv) (l1 l2 : List BrokerOp) (e : GoError)
    (h : (seqOps env l1).2 = Except.error e) :
    seqOps env (l1 ++ l2) = seqOps env l1 := by
  induction l1 with
  | nil => simp [seqOps] at h
  | cons op tail ih =>
    cases henv : env op with
    | error e2 => simp [seqOps, henv]
    | ok u =>
      cases u
      simp only [seqOps, henv] at h ⊢
      simp [ih h]

/-- `Config.SetupAllQueues` runs exactly `seqOps` over the planned
declaration list: the Go composition of the four setup helpers with
early-return-on-error equals run-in-order-abort-at-first-error. -/
theorem setupAllQueues_eq_seqOps (qc : Config) (env : BrokerEnv) :
    qc.SetupAllQueues env = seqOps env (plannedOps qc) := by
  unfold Config.SetupAllQueues Config.SetupDeadLetterExchange Config.SetupDeadLetterQueue
    Config.SetupExchange Config.SetupMainQueue plannedOps
  by_cases h1 : qc.DLXExchangeName = "" <;> by_cases h2 : qc.DLQName = "" <;>
    by_cases h3 : qc.QueueName = "" <;>
    simp only [h1, h2, h3, ne_eq, not_true_eq_false, not_false_eq_true, ite_true, ite_false,
      if_true, if_false, List.nil_append, List.append_nil, List.cons_append,
      List.singleton_append] <;>
    (repeat' (first | split | simp_all [seqOps, @eq_comm (List BrokerOp)]))

/-- The attempted operations are an order-preserving prefix of the list
given to `seqOps`. -/
theorem seqOps_prefix (env : BrokerEnv) (ops : List BrokerOp) :
    ∃ rest, ops = (seqOps env ops).1 ++ rest := by
  induction ops with
  | nil => exact ⟨[], rfl⟩
  | cons op tail ih =>
    cases henv : env op with
    | error e => exact ⟨tail, by simp [seqOps, henv]⟩
    | ok u =>
      cases u
      obtain ⟨rest, hr⟩ := ih
      refine ⟨rest, ?_⟩
      simp only [seqOps, henv, List.cons_append]
      exact congrArg (List.cons op) hr

/-- When the broker accepts every operation, `seqOps` attempts them all
and succeeds. -/
theorem seqOps_all_ok (env : BrokerEnv) (ops : List BrokerOp)
    (h : ∀ op ∈ ops, env op = Except.ok ()) : seqOps env ops = (ops, Except.ok ()) := by
  induction ops with
  | nil => rfl
  | cons op tail ih =>
    have hop := h op (List.mem_cons_self op tail)
    have htail := ih (fun o ho => h o (List.mem_cons_of_mem op ho))
    simp [seqOps, hop, htail]

/-- A `seqOps` failure decomposes the run: some attempted prefix
succeeded, the next operation returned exactly the reported error, and
nothing after it was attempted. -/
theorem seqOps_error_decomp (env : BrokerEnv) (ops : List BrokerOp) (e : GoError)
    (h : (seqOps env ops).2 = Except.error e) :
    ∃ pre op rest, (seqOps env ops).1 = pre ++ [op] ∧ ops = pre ++ [op] ++ rest ∧
      env op = Except.error e ∧ ∀ o ∈ pre, env o = Except.ok () := by
  induction ops with
  | nil => simp [seqOps] at h
  | cons op tail ih =>
    cases henv : env op with
    | error e2 =>
      have he : e2 = e := by simpa [seqOps, henv] using h
      subst he
      exact ⟨[], op, tail, by simp [seqOps, henv], by simp, henv, by simp⟩
    | ok u =>
      cases u
      simp only [seqOps, henv] at h
      obtain ⟨pre, op2, rest, h1, h2, h3, h4⟩ := ih h
      refine ⟨op :: pre, op2, rest, ?_, ?_, h3, ?_⟩
      · simp only [seqOps, henv, List.cons_append]
        exact congrArg (List.cons op) h1
      · simp only [List.cons_append, List.append_assoc] at h2 ⊢
        exact congrArg (List.cons op) h2
      · intro o ho
        rcases List.mem_cons.mp ho with rfl | hp
        · exact henv
        · exact h4 o hp

/-- C7: `SetupAllQueues` attempts exactly the spec's ordered declaration
list (dead-letter exchange if named, dead-letter queue and binding if
named, main exchange, main queue with `GetQueueArguments` and binding
only if a queue name is given): the run is an in-order prefix of
`plannedOps`; when the broker accepts everything, all planned operations
and no others are attempted in order; the first failing operation's error
is returned and aborts the remaining steps; and with `QueueName = ""` no
queue is ever declared with queue arguments (the main-queue declaration
is the only one carrying them) while the main exchange declaration is
still planned (and attempted whenever setup reaches it). -/
theorem setupAllQueues_spec (qc : Config) (env : BrokerEnv) :
    qc.SetupAllQueues env = seqOps env (plannedOps qc) ∧
    (∃ rest, plannedOps qc = (qc.SetupAllQueues env).1 ++ rest) ∧
    ((∀ op ∈ plannedOps qc, env op = Except.ok ()) →
      qc.SetupAllQueues env = (plannedOps qc, Except.ok ())) ∧
    (∀ e, (qc.SetupAllQueues env).2 = Except.error e →
      ∃ pre op rest, (qc.SetupAllQueues env).1 = pre ++ [op] ∧
        plannedOps qc = pre ++ [op] ++ rest ∧ env op = Except.error e ∧
        ∀ o ∈ pre, env o = Except.ok ()) ∧
    (qc.QueueName = "" →
      (∀ n d a ex nw args, BrokerOp.queueDeclare n d a ex nw (some args) ∉ plannedOps qc) ∧
      BrokerOp.exchangeDeclare qc.ExchangeName qc.getExchangeType true false false false ∈
        plannedOps qc) := by
  have hbridge := setupAllQueues_eq_seqOps qc env
  refine ⟨hbridge, ?_, ?_, ?_, ?_⟩
  · rw [hbridge]
    exact seqOps_prefix env (plannedOps qc)
  · intro hall
    rw [hbridge]
    exact seqOps_all_ok env _ hall
  · intro e he
    rw [hbridge] at he ⊢
    exact seqOps_error_decomp env _ e he
  · intro h3
    constructor
    · intro n d a ex nw args hmem
      by_cases hx : qc.DLXExchangeName = "" <;> by_cases hq : qc.DLQName = "" <;>
        simp_all [plannedOps]
    · by_cases hx : qc.DLXExchangeName = "" <;> by_cases hq : qc.DLQName = "" <;>
        simp_all [plannedOps]

/-- C7 witness: with the sample topology and a broker that accepts every
operation, setup attempts exactly the planned declarations and
succeeds. -/
theorem setupAllQueues_spec_witness :
    sampleConfig.SetupAllQueues (fun _ => Except.ok ()) =
      (plannedOps sampleConfig, Except.ok ()) :=
  (setupAllQueues_spec sampleConfig (fun _ => Except.ok ())).2.2.1 (fun _ _ => rfl)

/-! ## Claims C1 and C2: the per-delivery retry path -/

/-- A republished body passes through the broker unchanged. -/
theorem redeliver_body {β : Type} (b : β) (t : Table) : (redeliver b t).body = b := rfl

/-- Reading the retry count back from a republished retry-header table:
the Go `int` count is carried as an `int32` field on the wire, so
`GetRetryCount` returns the incremented count (whenever it fits in 32
bits). -/
theorem getRetryCount_redeliver {β : Type} (b : β) (n : Int) (e : GoError) (now : Int)
    (h1 : -(2 ^ 31) ≤ n + 1) (h2 : n + 1 < 2 ^ 31) :
    GetRetryCount (redeliver b (retryHeaders n e now)) = n + 1 := by
  simp [GetRetryCount, redeliver, deliverTable, retryHeaders, wireValue, lookupHeader,
    wrap32_id _ h1 h2]

/-- C1: for a delivery whose retry count `n` is below `MaxRetries` and
whose handler fails, `processMessage` rejects without requeue and
schedules a re-publish of the same body onto the configured main
exchange and routing key, with replacement headers carrying retry count
`n + 1`, so that `GetRetryCount` on the republished delivery reads
`n + 1` (the side conditions `0 ≤ n` and `n + 1 < 2^31` hold for every
count this package itself produces: `GetRetryCount` only reads `int32`
headers). The final conjunct is the end-to-end scenario: from a fresh
message, two consecutive handler failures produce two reject+schedule
pairs whose `x-retry-count` reads 1, then 2. -/
theorem processMessage_failure_republishes {β : Type} (config : Config)
    (retryConfig : RetryConfig) (handler : Delivery β → Except GoError Unit)
    (msg : Delivery β) (n : Int) (e : GoError) (now : Int)
    (hn : GetRetryCount msg = n) (hlt : n < retryConfig.MaxRetries)
    (hn0 : 0 ≤ n) (hn1 : n + 1 < 2 ^ 31)
    (hfail : handler msg = Except.error e) :
    processMessage config retryConfig handler now msg =
      [ConsumerEffect.reject false,
       ConsumerEffect.schedule
         (ScheduleRetry config msg.body (retryHeaders n e now)
           (CalculateRetryDelay n.toNat retryConfig))] ∧
    lookupHeader (retryHeaders n e now) "x-retry-count" = some (FieldValue.vint (n + 1)) ∧
    (ScheduleRetry config msg.body (retryHeaders n e now)
        (CalculateRetryDelay n.toNat retryConfig)).exchange = config.ExchangeName ∧
    (ScheduleRetry config msg.body (retryHeaders n e now)
        (CalculateRetryDelay n.toNat retryConfig)).routingKey = config.RoutingKey ∧
    (ScheduleRetry config msg.body (retryHeaders n e now)
        (CalculateRetryDelay n.toNat retryConfig)).msg.body = msg.body ∧
    GetRetryCount (redeliver msg.body (retryHeaders n e now)) = n + 1 ∧
    (∀ (b : β) (e1 e2 : GoError) (now1 now2 : Int),
      handler ⟨b, none⟩ = Except.error e1 →
      handler (redeliver b (retryHeaders 0 e1 now1)) = Except.error e2 →
      1 < retryConfig.MaxRetries →
      processMessage config retryConfig handler now1 ⟨b, none⟩ =
        [ConsumerEffect.reject false,
         ConsumerEffect.schedule (ScheduleRetry config b (retryHeaders 0 e1 now1)
           (CalculateRetryDelay 0 retryConfig))] ∧
      GetRetryCount (redeliver b (retryHeaders 0 e1 now1)) = 1 ∧
      processMessage config retryConfig handler now2 (redeliver b (retryHeaders 0 e1 now1)) =
        [ConsumerEffect.reject false,
         ConsumerEffect.schedule (ScheduleRetry config b (retryHeaders 1 e2 now2)
           (CalculateRetryDelay 1 retryConfig))] ∧
      GetRetryCount (redeliver b (retryHeaders 1 e2 now2)) = 2) := by
  have hcount : ¬ (n ≥ retryConfig.MaxRetries) := by omega
  refine ⟨?_, ?_, rfl, rfl, rfl, ?_, ?_⟩
  · simp [processMessage, hn, hfail, hcount]
  · simp [retryHeaders, lookupHeader]
  · exact getRetryCount_redeliver msg.body n e now (by omega) hn1
  · intro b e1 e2 now1 now2 hf1 hf2 hM1
    have hz : GetRetryCount (⟨b, none⟩ : Delivery β) = 0 := rfl
    have hM0 : ¬ ((0 : Int) ≥ retryConfig.MaxRetries) := by omega
    have hM1n : ¬ ((1 : Int) ≥ retryConfig.MaxRetries) := by omega
    have g1 : GetRetryCount (redeliver b (retryHeaders 0 e1 now1)) = 1 := by
      simpa using getRetryCount_redeliver b 0 e1 now1 (by norm_num) (by norm_num)
    have g2 : GetRetryCount (redeliver b (retryHeaders 1 e2 now2)) = 2 := by
      simpa using getRetryCount_redeliver b 1 e2 now2 (by norm_num) (by norm_num)
    refine ⟨?_, g1, ?_, g2⟩
    · simp [processMessage, hz, hf1, hM0]
    · simp [processMessage, g1, hf2, hM1n, redeliver_body]

/-- C1 witness: a fresh message (no headers, count 0) under `maxRetries =
3` with a failing handler is rejected and a republish with headers
`x-retry-count = 1` is scheduled after `CalculateRetryDelay 0`. -/
theorem processMessage_failure_republishes_witness :
    processMessage sampleConfig ⟨3, 1, 300⟩ (fun _ => Except.error "boom") 0
        (⟨0, none⟩ : Delivery Nat) =
      [ConsumerEffect.reject false,
       ConsumerEffect.schedule (ScheduleRetry sampleConfig 0 (retryHeaders 0 "boom" 0)
         (CalculateRetryDelay 0 ⟨3, 1, 300⟩))] :=
  (processMessage_failure_republishes sampleConfig ⟨3, 1, 300⟩ (fun _ => Except.error "boom")
    ⟨0, none⟩ 0 "boom" 0 rfl (by decide) (by decide) (by decide) rfl).1

/-- C2: with `MaxRetries = 3`, a message failing on deliveries with
counts 0, 1 and 2 is rejected-and-rescheduled three times with
increasing backoff indices, and its fourth delivery (count 3) is
rejected without requeue, without invoking any handler (the result is
the same for every handler `h4`) and without a fourth scheduled
republish; a message that has failed twice and whose handler succeeds on
the third delivery (count 2) is acknowledged — its effect list is
exactly `[ack]`, with no reject and no republish. -/
theorem processMessage_maxRetries_three {β : Type} (config : Config) (base maxd : Int)
    (b : β) (handler handlerOkThird : Delivery β → Except GoError Unit)
    (e1 e2 e3 : GoError) (now1 now2 now3 now4 : Int)
    (h1 : handler ⟨b, none⟩ = Except.error e1)
    (h2 : handler (redeliver b (retryHeaders 0 e1 now1)) = Except.error e2)
    (h3 : handler (redeliver b (retryHeaders 1 e2 now2)) = Except.error e3)
    (hok : handlerOkThird (redeliver b (retryHeaders 1 e2 now2)) = Except.ok ()) :
    processMessage config ⟨3, base, maxd⟩ handler now1 ⟨b, none⟩ =
      [ConsumerEffect.reject false,
       ConsumerEffect.schedule (ScheduleRetry config b (retryHeaders 0 e1 now1)
         (CalculateRetryDelay 0 ⟨3, base, maxd⟩))] ∧
    processMessage config ⟨3, base, maxd⟩ handler now2 (redeliver b (retryHeaders 0 e1 now1)) =
      [ConsumerEffect.reject false,
       ConsumerEffect.schedule (ScheduleRetry config b (retryHeaders 1 e2 now2)
         (CalculateRetryDelay 1 ⟨3, base, maxd⟩))] ∧
    processMessage config ⟨3, base, maxd⟩ handler now3 (redeliver b (retryHeaders 1 e2 now2)) =
      [ConsumerEffect.reject false,
       ConsumerEffect.schedule (ScheduleRetry config b (retryHeaders 2 e3 now3)
         (CalculateRetryDelay 2 ⟨3, base, maxd⟩))] ∧
    (∀ h4 : Delivery β → Except GoError Unit,
      processMessage config ⟨3, base, maxd⟩ h4 now4 (redeliver b (retryHeaders 2 e3 now3)) =
        [ConsumerEffect.reject false]) ∧
    processMessage config ⟨3, base, maxd⟩ handlerOkThird now3
        (redeliver b (retryHeaders 1 e2 now2)) =
      [ConsumerEffect.ack false] := by
  have hz : GetRetryCount (⟨b, none⟩ : Delivery β) = 0 := rfl
  have g1 : GetRetryCount (redeliver b (retryHeaders 0 e1 now1)) = 1 := by
    simpa using getRetryCount_redeliver b 0 e1 now1 (by norm_num) (by norm_num)
  have g2 : GetRetryCount (redeliver b (retryHeaders 1 e2 now2)) = 2 := by
    simpa using getRetryCount_redeliver b 1 e2 now2 (by norm_num) (by norm_num)
  have g3 : GetRetryCount (redeliver b (retryHeaders 2 e3 now3)) = 3 := by
    simpa using getRetryCount_redeliver b 2 e3 now3 (by norm_num) (by norm_num)
  refine ⟨?_, ?_, ?_, ?_, ?_⟩
  · simp [processMessage, hz, h1]
  · simp [processMessage, g1, h2, redeliver_body]
  · simp [processMessage, g2, h3, redeliver_body]
  · intro h4
    simp [processMessage, g3]
  · simp [processMessage, g2, hok]

/-- C2 witness: the fourth delivery (republished retry count 2 + 1 = 3
on the wire) under `maxRetries = 3` is terminally rejected with no
further republish, whatever the handler would do. -/
theorem processMessage_maxRetries_three_witness :
    processMessage sampleConfig ⟨3, 1, 300⟩ (fun _ => Except.error "boom") 0
        (redeliver (0 : Nat) (retryHeaders 2 "boom" 0)) =
      [ConsumerEffect.reject false] :=
  (processMessage_maxRetries_three sampleConfig 1 300 0 (fun _ => Except.error "boom")
    (fun _ => Except.ok ()) "boom" "boom" "boom" 0 0 0 0 rfl rfl rfl rfl).2.2.2.1
    (fun _ => Except.error "boom")

/-! ## Claim C8: fail-fast publish and the default deadline -/

/-- C8: `Publish` on an unhealthy producer (nil or closed connection or
channel, i.e. `IsConnected` false) returns the "not available" error with
an empty broker trace — no publish is attempted, so nothing waits on the
context deadline. On a healthy producer exactly one broker publish is
attempted, on the configured exchange and routing key, bounded by the
supplied context, or by the default 5-second-timeout context when none is
given. -/
theorem publish_fail_fast_and_default_deadline {β : Type} (p : Producer) (ctx : Option Ctx)
    (body : β) (headers : Option Table) (env : PublishEnv β) :
    (p.IsConnected = false →
      p.Publish ctx body headers env =
        ([], Except.error "RabbitMQ connection is not available")) ∧
    (p.IsConnected = true → ctx = none →
      (p.Publish ctx body headers env).1 =
        [PublishEffect.brokerPublish defaultPublishCtx p.config.ExchangeName
          p.config.RoutingKey false false ⟨"application/json", body, headers, 2⟩]) ∧
    (∀ c, p.IsConnected = true → ctx = some c →
      (p.Publish ctx body headers env).1 =
        [PublishEffect.brokerPublish c p.config.ExchangeName
          p.config.RoutingKey false false ⟨"application/json", body, headers, 2⟩]) := by
  refine ⟨?_, ?_, ?_⟩
  · intro h
    simp only [Producer.IsConnected] at h
    simp [Producer.Publish, h]
  · intro h hc
    subst hc
    simp only [Producer.IsConnected] at h
    simp only [Producer.Publish, h, if_true]
    cases henv : env (PublishEffect.brokerPublish defaultPublishCtx p.config.ExchangeName
        p.config.RoutingKey false false ⟨"application/json", body, headers, 2⟩) <;>
      simp [henv]
  · intro c h hc
    subst hc
    simp only [Producer.IsConnected] at h
    simp only [Producer.Publish, h, if_true]
    cases henv : env (PublishEffect.brokerPublish c p.config.ExchangeName
        p.config.RoutingKey false false ⟨"application/json", body, headers, 2⟩) <;>
      simp [henv]

/-- C8 witness: a producer whose connection handle reports closed fails
fast with the "not available" error and an empty broker trace, even with
a 60-second context supplied. -/
theorem publish_fail_fast_witness :
    Producer.Publish (β := Nat) ⟨some ⟨true⟩, some ⟨false⟩, sampleConfig⟩
        (some ⟨some (60 * goSecond)⟩) 0 none (fun _ => Except.ok ()) =
      ([], Except.error "RabbitMQ connection is not available") :=
  (publish_fail_fast_and_default_deadline ⟨some ⟨true⟩, some ⟨false⟩, sampleConfig⟩
    (some ⟨some (60 * goSecond)⟩) 0 none (fun _ => Except.ok ())).1 rfl

/-! ## Claim C9: `PublishWithRoutingKey` -/

/-- C9: `PublishWithRoutingKey` (modelled from the spec, which calls it
"the same operation parameterized by an explicit routing key"; the method
is called by the tasks adapter but not among the given producer sources)
behaves identically to `Publish` on a producer whose configured routing
key is replaced by the explicit key — same health check, same error, same
context defaulting, same publishing; and the tasks adapter's
`Publish(taskType, payload)` publishes through it with the derived key
`"tasks." ++ taskType`. -/
theorem publishWithRoutingKey_refines {β : Type} (p : Producer) (ctx : Option Ctx)
    (body : β) (headers : Option Table) (key : String) (env : PublishEnv β) :
    p.PublishWithRoutingKey ctx body headers key env =
      Producer.Publish ⟨p.conn, p.channel, { p.config with RoutingKey := key }⟩
        ctx body headers env ∧
    (∀ service taskType payload now (envT : PublishEnv TaskMsg),
      (tasksPublish service p ctx taskType payload now envT).2 =
        p.PublishWithRoutingKey ctx ⟨service, taskType, stampTimestamp payload now⟩ none
          ("tasks." ++ taskType) envT) :=
  ⟨rfl, fun _ _ _ _ _ => rfl⟩

/-! ## Claim C10: adapter payload stamping and envelope -/

/-- C10: for both the events and the tasks adapter, `Publish` mutates a
non-nil caller-supplied payload map in place — when "timestamp" is absent
it is inserted and the insertion is visible to the caller after the call
— while a nil payload is accepted and treated as an empty map (the
caller's nil variable stays nil); in every case the published body is the
`{service, type, payload}` envelope carrying the adapter's configured
service name and the stamped payload. -/
theorem adapters_stamp_and_envelope (service : String) (p : Producer) (ctx : Option Ctx)
    (t : String) (now : String) (envE : PublishEnv Event) (envT : PublishEnv TaskMsg) :
    (eventsPublish service p ctx t none now envE =
      (none, p.Publish ctx ⟨service, t, [("timestamp", JsonVal.str now)]⟩ none envE)) ∧
    (∀ m, mapLookup m "timestamp" = none →
      eventsPublish service p ctx t (some m) now envE =
        (some (mapInsert m "timestamp" (JsonVal.str now)),
         p.Publish ctx ⟨service, t, mapInsert m "timestamp" (JsonVal.str now)⟩ none envE)) ∧
    (∀ m v, mapLookup m "timestamp" = some v →
      eventsPublish service p ctx t (some m) now envE =
        (some m, p.Publish ctx ⟨service, t, m⟩ none envE)) ∧
    (tasksPublish service p ctx t none now envT =
      (none, p.PublishWithRoutingKey ctx ⟨service, t, [("timestamp", JsonVal.str now)]⟩
        none ("tasks." ++ t) envT)) ∧
    (∀ m, mapLookup m "timestamp" = none →
      tasksPublish service p ctx t (some m) now envT =
        (some (mapInsert m "timestamp" (JsonVal.str now)),
         p.PublishWithRoutingKey ctx ⟨service, t, mapInsert m "timestamp" (JsonVal.str now)⟩
           none ("tasks." ++ t) envT)) ∧
    (∀ m v, mapLookup m "timestamp" = some v →
      tasksPublish service p ctx t (some m) now envT =
        (some m, p.PublishWithRoutingKey ctx ⟨service, t, m⟩ none ("tasks." ++ t) envT)) := by
  refine ⟨?_, ?_, ?_, ?_, ?_, ?_⟩
  · simp [eventsPublish, stampTimestamp, callerPayloadAfter, mapLookup, mapInsert]
  · intro m hm
    simp [eventsPublish, stampTimestamp, callerPayloadAfter, hm]
  · intro m v hm
    simp [eventsPublish, stampTimestamp, callerPayloadAfter, hm]
  · simp [tasksPublish, stampTimestamp, callerPayloadAfter, mapLookup, mapInsert]
  · intro m hm
    simp [tasksPublish, stampTimestamp, callerPayloadAfter, hm]
  · intro m v hm
    simp [tasksPublish, stampTimestamp, callerPayloadAfter, hm]

/-- C10 witness: publishing an event with a payload lacking "timestamp"
stamps it, visibly to the caller, and the published body is the
`{service, type, payload}` envelope with the configured service name. -/
theorem adapters_stamp_witness :
    eventsPublish "auth" ⟨some ⟨false⟩, some ⟨false⟩, sampleConfig⟩ none "user.created"
        (some [("user", JsonVal.str "u1")]) "2026-10-11T00:00:00Z" (fun _ => Except.ok ()) =
      (some [("user", JsonVal.str "u1"),
             ("timestamp", JsonVal.str "2026-10-11T00:00:00Z")],
       Producer.Publish ⟨some ⟨false⟩, some ⟨false⟩, sampleConfig⟩ none
         ⟨"auth", "user.created",
          [("user", JsonVal.str "u1"),
           ("timestamp", JsonVal.str "2026-10-11T00:00:00Z")]⟩ none (fun _ => Except.ok ())) :=
  (adapters_stamp_and_envelope "auth" ⟨some ⟨false⟩, some ⟨false⟩, sampleConfig⟩ none
    "user.created" "2026-10-11T00:00:00Z" (fun _ => Except.ok ())
    (fun _ => Except.ok ())).2.1 [("user", JsonVal.str "u1")] rfl
